import Mathlib

/-!
Verification development for the drug-intelligence batch workflow.

The definitions below are shallow embeddings of the Python sources:
`processors.py` (name normalization and per-row classification),
`drug_intelligence.py` (run orchestration, per-customer dispatch, file
staging, final disposition) and `utils.py` (report aggregation).
Python strings are modelled as Lean `String` or `List Char`; database
tables as Lean lists; filesystem locations as small inductive types.
I/O failures of external collaborators (database driver, SMTP, the
spreadsheet library) are idealized: every move, insert and query that
the code performs is assumed to succeed, which is the level at which
the specification states its properties.
-/

namespace DrugIntelligence

/-! ## Name normalization (`DrugDataProcessor.get_excluded_salt`, processors.py lines 70-104)

The Python code splits the drug name on whitespace after padding the
separators `/` and `+` with spaces, drops every token that is
case-insensitively equal to a configured excluded salt, and joins the
survivors with single spaces.  We embed the string pipeline at the
`List Char` level with structural recursion so that the kernel can
evaluate it on concrete inputs. -/

/-- The space character, written via its code point. -/
def spc : Char := Char.ofNat 32

/-- The forward-slash separator character. -/
def slashC : Char := Char.ofNat 47

/-- The plus separator character. -/
def plusC : Char := Char.ofNat 43

/-- Whitespace test matching the characters `str.split()` separates on
in the inputs this system sees: space, tab, newline, carriage return. -/
def isSpaceChar (c : Char) : Bool :=
  c == Char.ofNat 32 || c == Char.ofNat 9 || c == Char.ofNat 10 || c == Char.ofNat 13

/-- Embedding of Python `text.replace(sep, " " + sep + " ")` for a
single-character separator: every occurrence of `sep` is padded with a
space on each side. -/
def replaceSep (sep : Char) : List Char → List Char
  | [] => []
  | c :: cs =>
    if c == sep then spc :: sep :: spc :: replaceSep sep cs
    else c :: replaceSep sep cs

/-- `drug_name.replace('/', ' / ').replace('+', ' + ')` from
`get_excluded_salt`.  The first replacement introduces no `+`, so the
two passes commute with this composition. -/
def expandSeparators (l : List Char) : List Char :=
  replaceSep plusC (replaceSep slashC l)

/-- Worker for `pySplit`: `acc` holds the characters of the word being
scanned, in reverse. -/
def pySplitAux : List Char → List Char → List (List Char)
  | [], acc => if acc.isEmpty then [] else [acc.reverse]
  | c :: cs, acc =>
    if isSpaceChar c then
      if acc.isEmpty then pySplitAux cs [] else acc.reverse :: pySplitAux cs []
    else pySplitAux cs (c :: acc)

/-- Embedding of Python `str.split()` with no arguments: splits on runs
of whitespace and never produces empty tokens. -/
def pySplit (l : List Char) : List (List Char) :=
  pySplitAux l []

/-- Embedding of Python `str.strip()`: remove leading and trailing
whitespace. -/
def pyStrip (l : List Char) : List Char :=
  ((l.dropWhile isSpaceChar).reverse.dropWhile isSpaceChar).reverse

/-- Embedding of Python `str.lower()` (the inputs are ASCII). -/
def lowerChars (l : List Char) : List Char :=
  l.map Char.toLower

/-- Embedding of Python `" ".join(parts)`. -/
def joinSp : List (List Char) → List Char
  | [] => []
  | [t] => t
  | t :: ts => t ++ spc :: joinSp ts

/-- The filtering loop of `get_excluded_salt`: keep each `part` whose
`part.strip().lower()` is not among the lowercased excluded salts, and
append `part.strip()`. -/
def filteredParts (parts : List (List Char)) (salts : List (List Char)) : List (List Char) :=
  (parts.filter
    (fun part => !((salts.map lowerChars).contains (lowerChars (pyStrip part))))).map pyStrip

/-- Embedding of `DrugDataProcessor.get_excluded_salt` (processors.py
lines 70-104).  The `isinstance` guard of the source collapses to the
empty-string test in this typed embedding; the Python function returns
the empty string for both empty and non-string inputs. -/
def get_excluded_salt (drug_name : String) (excluded_saltnames : List String) : String :=
  if drug_name = "" then "" else
    let parts := pySplit (expandSeparators drug_name.toList)
    let filtered_parts := filteredParts parts (excluded_saltnames.map String.toList)
    String.mk (pyStrip (joinSp filtered_parts))

/-- The salt-filtered token sequence produced inside
`get_excluded_salt`, exposed for the statements below. -/
def filteredTokens (s : String) (salts : List String) : List (List Char) :=
  filteredParts (pySplit (expandSeparators s.toList)) (salts.map String.toList)

/-- A well-formed token: nonempty and free of whitespace.  `pySplit`
produces only such tokens. -/
def goodTok (t : List Char) : Prop :=
  t ≠ [] ∧ ∀ c ∈ t, isSpaceChar c = false

theorem dropWhile_of_forall_false (p : Char → Bool) (l : List Char)
    (h : ∀ c ∈ l, p c = false) : l.dropWhile p = l := by
  cases l with
  | nil => rfl
  | cons a l => simp [List.dropWhile_cons, h a (by simp)]

theorem pyStrip_of_good (t : List Char) (h : ∀ c ∈ t, isSpaceChar c = false) :
    pyStrip t = t := by
  unfold pyStrip
  rw [dropWhile_of_forall_false _ _ h]
  rw [dropWhile_of_forall_false _ _ (fun c hc => h c (List.mem_reverse.mp hc))]
  exact List.reverse_reverse t

theorem pySplitAux_word (w : List Char) (l acc : List Char)
    (hw : ∀ c ∈ w, isSpaceChar c = false) :
    pySplitAux (w ++ l) acc = pySplitAux l (w.reverse ++ acc) := by
  induction w generalizing acc with
  | nil => simp
  | cons c w ih =>
    have hc : isSpaceChar c = false := hw c (by simp)
    have hw2 : ∀ d ∈ w, isSpaceChar d = false := fun d hd => hw d (by simp [hd])
    simp [pySplitAux, hc, ih (c :: acc) hw2]

theorem pySplitAux_good (l : List Char) :
    ∀ acc, (∀ c ∈ acc, isSpaceChar c = false) →
    ∀ t ∈ pySplitAux l acc, goodTok t := by
  induction l with
  | nil =>
    intro acc hacc t ht
    by_cases h : acc.isEmpty
    · simp [pySplitAux, h] at ht
    · simp [pySplitAux, h] at ht
      subst ht
      refine ⟨by simpa using (by simpa [List.isEmpty_iff] using h), ?_⟩
      intro c hc
      exact hacc c (List.mem_reverse.mp hc)
  | cons c cs ih =>
    intro acc hacc t ht
    by_cases hc : isSpaceChar c = true
    · by_cases hacc0 : acc.isEmpty
      · simp [pySplitAux, hc, hacc0] at ht
        exact ih [] (by simp) t ht
      · simp [pySplitAux, hc, hacc0] at ht
        rcases ht with ht | ht
        · subst ht
          refine ⟨by simpa using (by simpa [List.isEmpty_iff] using hacc0), ?_⟩
          intro d hd
          exact hacc d (List.mem_reverse.mp hd)
        · exact ih [] (by simp) t ht
    · have hc2 : isSpaceChar c = false := by simpa using hc
      simp [pySplitAux, hc2] at ht
      refine ih (c :: acc) ?_ t ht
      intro d hd
      rcases List.mem_cons.mp hd with hd | hd
      · simpa [hd] using hc2
      · exact hacc d hd

theorem pySplit_good (l : List Char) : ∀ t ∈ pySplit l, goodTok t :=
  pySplitAux_good l [] (by simp)

theorem joinSp_cons_ne (t : List Char) (ts : List (List Char)) (h : ts ≠ []) :
    joinSp (t :: ts) = t ++ spc :: joinSp ts := by
  cases ts with
  | nil => exact absurd rfl h
  | cons t2 ts => rfl

theorem joinSp_head (ts : List (List Char)) (h : ∀ t ∈ ts, goodTok t) (hne : ts ≠ []) :
    ∃ c rest, joinSp ts = c :: rest ∧ isSpaceChar c = false := by
  cases ts with
  | nil => exact absurd rfl hne
  | cons t ts =>
    obtain ⟨htne, htch⟩ := h t (by simp)
    cases t with
    | nil => exact absurd rfl htne
    | cons c t2 =>
      cases ts with
      | nil => exact ⟨c, t2, rfl, htch c (by simp)⟩
      | cons u us =>
        exact ⟨c, t2 ++ spc :: joinSp (u :: us), rfl, htch c (by simp)⟩

theorem joinSp_last (ts : List (List Char)) (h : ∀ t ∈ ts, goodTok t) (hne : ts ≠ []) :
    ∃ c rest, (joinSp ts).reverse = c :: rest ∧ isSpaceChar c = false := by
  induction ts with
  | nil => exact absurd rfl hne
  | cons t ts ih =>
    cases ts with
    | nil =>
      obtain ⟨htne, htch⟩ := h t (by simp)
      have hrne : t.reverse ≠ [] := by simpa using htne
      cases hr : t.reverse with
      | nil => exact absurd hr hrne
      | cons c rest =>
        refine ⟨c, rest, by simpa using hr, ?_⟩
        have : c ∈ t.reverse := by simp [hr]
        exact htch c (List.mem_reverse.mp this)
    | cons t2 ts2 =>
      obtain ⟨c, rest, hrev, hcsp⟩ :=
        ih (fun u hu => h u (by simp [hu])) (by simp)
      refine ⟨c, rest ++ spc :: t.reverse, ?_, hcsp⟩
      rw [joinSp_cons_ne t (t2 :: ts2) (by simp)]
      simp [hrev]

theorem pyStrip_joinSp (ts : List (List Char)) (h : ∀ t ∈ ts, goodTok t) :
    pyStrip (joinSp ts) = joinSp ts := by
  cases hts : ts with
  | nil => rfl
  | cons t ts2 =>
    subst hts
    obtain ⟨c, rest, hj, hc⟩ := joinSp_head (t :: ts2) h (by simp)
    obtain ⟨c2, rest2, hj2, hc2⟩ := joinSp_last (t :: ts2) h (by simp)
    unfold pyStrip
    rw [hj, List.dropWhile_cons, if_neg (by simp [hc]), ← hj, hj2,
      List.dropWhile_cons, if_neg (by simp [hc2]), ← hj2, List.reverse_reverse]

theorem pySplit_joinSp (ts : List (List Char)) (h : ∀ t ∈ ts, goodTok t) :
    pySplit (joinSp ts) = ts := by
  induction ts with
  | nil => rfl
  | cons t ts ih =>
    obtain ⟨htne, htch⟩ := h t (by simp)
    cases ts with
    | nil =>
      show pySplitAux (joinSp [t]) [] = [t]
      have : joinSp [t] = t ++ [] := by simp [joinSp]
      rw [this, pySplitAux_word t [] [] htch]
      have : (t.reverse ++ []).isEmpty = false := by
        simp [List.isEmpty_iff, htne]
      simp [pySplitAux, this, htne]
    | cons t2 ts2 =>
      rw [joinSp_cons_ne t (t2 :: ts2) (by simp)]
      show pySplitAux (t ++ spc :: joinSp (t2 :: ts2)) [] = t :: t2 :: ts2
      rw [pySplitAux_word t _ [] htch]
      have hsp : isSpaceChar spc = true := by decide
      have hne : (t.reverse ++ ([] : List Char)).isEmpty = false := by
        simp [List.isEmpty_iff, htne]
      simp only [pySplitAux, hsp, if_pos rfl, hne, if_neg (by simp [List.isEmpty_iff, htne] : ¬(t.reverse ++ ([] : List Char)).isEmpty = true)]
      have := ih (fun u hu => h u (by simp [hu]))
      simp [pySplit] at this
      simp [this, htne]

theorem filteredParts_good (parts salts : List (List Char))
    (hp : ∀ t ∈ parts, goodTok t) :
    ∀ t ∈ filteredParts parts salts, goodTok t := by
  intro t ht
  unfold filteredParts at ht
  obtain ⟨p, hpmem, hpt⟩ := List.mem_map.mp ht
  have hpg : goodTok p := hp p (List.mem_filter.mp hpmem).1
  rw [← hpt, pyStrip_of_good p hpg.2]
  exact hpg

theorem filteredTokens_good (s : String) (salts : List String) :
    ∀ t ∈ filteredTokens s salts, goodTok t :=
  filteredParts_good _ _ (pySplit_good _)

theorem get_excluded_salt_toList (s : String) (salts : List String) :
    (get_excluded_salt s salts).toList = joinSp (filteredTokens s salts) := by
  by_cases hs : s = ""
  · subst hs
    rfl
  · unfold get_excluded_salt
    rw [if_neg hs]
    show pyStrip (joinSp (filteredTokens s salts)) = joinSp (filteredTokens s salts)
    exact pyStrip_joinSp _ (filteredTokens_good s salts)

theorem joinSp_sep_infix (pre post : List (List Char)) (tok : List Char)
    (hpre : pre ≠ []) (hpost : post ≠ []) :
    ∃ u v, joinSp (pre ++ tok :: post) = u ++ spc :: (tok ++ spc :: v) := by
  induction pre with
  | nil => exact absurd rfl hpre
  | cons t pre ih =>
    cases pre with
    | nil =>
      refine ⟨t, joinSp post, ?_⟩
      rw [show (([t] : List (List Char)) ++ tok :: post) = t :: tok :: post from rfl]
      rw [joinSp_cons_ne t (tok :: post) (by simp)]
      rw [joinSp_cons_ne tok post hpost]
    | cons p2 pre2 =>
      obtain ⟨u, v, huv⟩ := ih (by simp)
      refine ⟨t ++ spc :: u, v, ?_⟩
      rw [show ((t :: p2 :: pre2) ++ tok :: post) = t :: ((p2 :: pre2) ++ tok :: post) from rfl]
      rw [joinSp_cons_ne t _ (by simp)]
      rw [huv]
      simp

/-- Checks the claimed separator re-spacing property of a string: every
occurrence of a slash or plus character has a space character
immediately before it and immediately after it. -/
def sepsSurroundedAux : Option Char → List Char → Bool
  | _, [] => true
  | prev, c :: rest =>
    if c == slashC || c == plusC then
      (match prev with
        | some p => p == spc
        | none => false)
      && (match rest with
          | d :: _ => d == spc
          | [] => false)
      && sepsSurroundedAux (some c) rest
    else sepsSurroundedAux (some c) rest

/-- Boolean form of the property claimed for every normalized output:
each separator is surrounded by single spaces. -/
def sepsSurrounded (s : String) : Bool :=
  sepsSurroundedAux none s.toList

/-- C4: Name normalization strips excluded salts only as whole
whitespace-separated tokens.  The two quoted examples hold; in general
the words of the output are exactly the separator-expanded input tokens
whose lowercased form is not an excluded salt (so no salt occurrence
embedded inside a longer word is ever stripped), and the output equals
the single-space join of its own words, i.e. repeated whitespace is
collapsed and the result is trimmed. -/
theorem normalize_whole_word :
    get_excluded_salt "Amoxicillin Sodium" ["Sodium"] = "Amoxicillin"
    ∧ get_excluded_salt "Sodiumchloride Complex" ["Sodium"] = "Sodiumchloride Complex"
    ∧ (∀ (s : String) (salts : List String),
        pySplit (get_excluded_salt s salts).toList = filteredTokens s salts)
    ∧ (∀ (s : String) (salts : List String),
        pyStrip (get_excluded_salt s salts).toList = (get_excluded_salt s salts).toList
        ∧ joinSp (pySplit (get_excluded_salt s salts).toList)
            = (get_excluded_salt s salts).toList) := by
  refine ⟨by decide, by decide, ?_, ?_⟩
  · intro s salts
    rw [get_excluded_salt_toList]
    exact pySplit_joinSp _ (filteredTokens_good s salts)
  · intro s salts
    constructor
    · rw [get_excluded_salt_toList]
      exact pyStrip_joinSp _ (filteredTokens_good s salts)
    · rw [get_excluded_salt_toList]
      rw [pySplit_joinSp _ (filteredTokens_good s salts)]

/-- C10 counterexample: the input string containing a leading slash
separator refutes the claim that in every normalized output each
separator ends up surrounded by single spaces.  For the input slash-B
the output is slash-space-B: the slash is re-spaced only on its right,
because the joined result is trimmed. -/
theorem separator_respacing_counterexample :
    ("/B".toList.contains slashC = true)
    ∧ get_excluded_salt "/B" [] = "/ B"
    ∧ sepsSurrounded (get_excluded_salt "/B" []) = false := by decide

/-- C10 (amended): normalization is not the identity even with no salts
removed: every separator token that sits strictly between two other
tokens of the salt-filtered token sequence appears in the output as
space-separator-space; a separator at the start or end of the token
sequence lacks the outer space because the result is trimmed; and the
empty input normalizes to the empty string. -/
theorem separator_respacing_amended :
    (∀ salts : List String, get_excluded_salt "" salts = "")
    ∧ get_excluded_salt "Amoxicillin/Clavulanate" [] = "Amoxicillin / Clavulanate"
    ∧ (∀ (s : String) (salts : List String) (c : Char) (pre post : List (List Char)),
        (c = slashC ∨ c = plusC) →
        filteredTokens s salts = pre ++ [c] :: post →
        pre ≠ [] → post ≠ [] →
        ∃ u v, (get_excluded_salt s salts).toList = u ++ spc :: c :: spc :: v) := by
  refine ⟨fun salts => by simp [get_excluded_salt], by decide, ?_⟩
  intro s salts c pre post _ hft hpre hpost
  rw [get_excluded_salt_toList, hft]
  obtain ⟨u, v, huv⟩ := joinSp_sep_infix pre post [c] hpre hpost
  exact ⟨u, v, by rw [huv]; simp⟩

/-- Witness for the amended C10 theorem at the concrete input A-slash-B
with no excluded salts. -/
theorem separator_respacing_amended_witness :
    ∃ u v, (get_excluded_salt "A/B" []).toList = u ++ spc :: slashC :: spc :: v :=
  separator_respacing_amended.2.2 "A/B" [] slashC [['A']] [['B']]
    (Or.inl rfl) (by decide) (by decide) (by decide)

/-! ## Marksans USA row classification
(`DrugDataProcessor.process_marksans_usa`, processors.py lines 585-597)

The per-row decision of the Marksans USA processor: the approval-status
field is stripped and lowercased, the withdrawn-date field is stripped,
and the include/exclude status plus remark are chosen by the two-step
rule of the source. -/

/-- String-level embedding of Python `str.lower()` via the character
list (kernel-evaluable, unlike the position-based core string map). -/
def pyLower (s : String) : String :=
  String.mk (lowerChars s.toList)

/-- String-level embedding of Python `str.strip()`. -/
def pyStripS (s : String) : String :=
  String.mk (pyStrip s.toList)

/-- Embedding of the classification step inside `process_marksans_usa`:
given the raw approval-status and withdrawn-date cell texts and the
configured default remark, produce `(include_exclude_status, remark)`. -/
def process_marksans_usa_classify (approval_status withdrawn_date remark_default : String) :
    String × String :=
  let approval_lower := pyLower (pyStripS approval_status)
  let withdrawn_clean := pyStripS withdrawn_date
  if ¬(approval_lower = "approved" ∨ approval_lower = "") then
    ("exclude", "Approval Status is not Approved")
  else if withdrawn_clean ≠ "" then
    ("exclude", "Withdrawn Date is not empty")
  else
    ("include", remark_default)

/-- C7: the Marksans USA row classification.  A row is excluded with
remark "Approval Status is not Approved" exactly when the trimmed,
lowercased approval status is neither "approved" nor empty; otherwise it
is excluded with remark "Withdrawn Date is not empty" exactly when the
trimmed withdrawn date is nonempty; otherwise it is included with the
default remark. -/
theorem marksans_usa_classification (a w d : String) :
    (process_marksans_usa_classify a w d = ("exclude", "Approval Status is not Approved")
      ↔ ¬(pyLower (pyStripS a) = "approved" ∨ pyLower (pyStripS a) = ""))
    ∧ (process_marksans_usa_classify a w d = ("exclude", "Withdrawn Date is not empty")
      ↔ ((pyLower (pyStripS a) = "approved" ∨ pyLower (pyStripS a) = "") ∧ pyStripS w ≠ ""))
    ∧ (process_marksans_usa_classify a w d = ("include", d)
      ↔ ((pyLower (pyStripS a) = "approved" ∨ pyLower (pyStripS a) = "") ∧ pyStripS w = "")) := by
  simp only [process_marksans_usa_classify]
  split_ifs with h1 h2
  · refine ⟨⟨fun h => by simp at h, fun hn => absurd h1 hn⟩,
      ⟨fun _ => ⟨h1, h2⟩, fun _ => rfl⟩,
      ⟨fun h => by simp at h, fun hc => absurd hc.2 h2⟩⟩
  · have h2e : pyStripS w = "" := by
      by_contra hne
      exact h2 hne
    refine ⟨⟨fun h => by simp at h, fun hn => absurd h1 hn⟩,
      ⟨fun h => by simp at h, fun hc => absurd h2e hc.2⟩,
      ⟨fun _ => ⟨h1, h2e⟩, fun _ => rfl⟩⟩
  · refine ⟨⟨fun _ => h1, fun _ => rfl⟩,
      ⟨fun h => by simp at h, fun hc => absurd hc.1 h1⟩,
      ⟨fun h => by simp at h, fun hc => absurd hc.1 h1⟩⟩

/-- Witness for the C7 theorem: a pending approval status is excluded
with the approval remark. -/
theorem marksans_usa_classification_witness :
    process_marksans_usa_classify "Pending" "" "tracked" =
      ("exclude", "Approval Status is not Approved") :=
  (marksans_usa_classification "Pending" "" "tracked").1.mpr (by decide)

/-! ## Per-customer dispatch and run disposition
(`DrugIntelligenceWorkflow`, drug_intelligence.py lines 420-1080 and
utils.py lines 391-517)

We model the effects of one run: for every active customer,
`execute_each_customer` either skips (no subprocess configuration row or
no spreadsheet file in the customer's intake folder), or creates a log
entry, stages the file into InProgress and runs the customer's
processor.  The processor dispatch `process_customer_file` looks the
subprocess name up in the fixed six-entry map; an unknown name yields
`False`.  A false result sends the file to
`Failed/<process_id>/<customer_name>/` and marks the log entry failed;
success sends it to `Processed/<process_id>/<customer_name>/` and marks
the log entry completed.  External I/O is idealized: file moves and
database writes succeed, and a processor that raises is equivalent to
one returning `False` because `process_customer_file` catches every
exception and returns `False`. -/

/-- One row of the per-customer subprocess configuration table
(`suprocess_info`), as read by `execute_each_customer`. -/
structure SubprocessConfig where
  suprocess_name : String
  excel_sheetname : String
  excel_startindex : Nat
  column_names : String
deriving DecidableEq

/-- An active customer together with the environment the dispatcher
sees for it: its configuration row (if any), the spreadsheet files in
its intake folder, and the abstract outcome of its processor (`true`
for a successful run; a processor that raises or returns falsy is
`false`). -/
structure Customer where
  customer_id : Nat
  customer_name : String
  subprocess : Option SubprocessConfig
  intakeFiles : List String
  processorOk : Bool
deriving DecidableEq

/-- Location of a customer's spreadsheet file. -/
inductive FileLoc
  | intake
  | inProgress
  | processed
  | failed
  | deleted
deriving DecidableEq

/-- One row of the per-customer log table (`log_report`). -/
structure LogEntry where
  process_id : Nat
  customer_id : Nat
  customer_name : String
  filename : String
  initiated : Bool
  completed : Bool
  failed : Bool
  failure_message : Option String
deriving DecidableEq

/-- The net effect of `execute_each_customer` on one customer: its
return value, the log row it leaves behind (if any), where the
customer's first intake file ends up, and whether that file was moved
into InProgress during the run. -/
structure CustomerResult where
  success : Bool
  log : Option LogEntry
  fileLoc : FileLoc
  staged : Bool
deriving DecidableEq

/-- The keys of the `processor_map` dictionary in
`process_customer_file` (drug_intelligence.py lines 657-664): the fixed
six-entry name-to-strategy table. -/
def processorNames : List String :=
  ["PROCESS_CAPLIN", "PROCESS_BELLS", "PROCESS_RELONCHEM",
   "PROCESS_MARKSANS_USA", "PROCESS_PADAGIS_USA", "PROCESS_PADAGIS_ISRAEL"]

/-- Embedding of `process_customer_file`: dictionary lookup of the
subprocess name; an unknown name returns `false`, a known name runs the
mapped processor, abstracted by `processorOk`. -/
def process_customer_file (subprocess_name : String) (processorOk : Bool) : Bool :=
  if processorNames.contains subprocess_name then processorOk else false

/-- The failure message written by `move_failed_clientfile`
(drug_intelligence.py line 756). -/
def failureMessage (customer_name filename : String) : String :=
  "Failed while processing " ++ customer_name ++ " customer - " ++ filename

/-- Embedding of `execute_each_customer` (drug_intelligence.py lines
485-633): skip when there is no subprocess configuration row or no
intake file; otherwise create the log row, stage the first file, run
the processor, and finalize the file and the log row according to the
result. -/
def execute_each_customer (pid : Nat) (c : Customer) : CustomerResult :=
  match c.subprocess with
  | none =>
    { success := true, log := none, fileLoc := FileLoc.intake, staged := false }
  | some sub =>
    match c.intakeFiles with
    | [] =>
      { success := true, log := none, fileLoc := FileLoc.intake, staged := false }
    | filename :: _ =>
      let entry : LogEntry :=
        { process_id := pid, customer_id := c.customer_id,
          customer_name := c.customer_name, filename := filename,
          initiated := true, completed := false, failed := false,
          failure_message := none }
      if process_customer_file sub.suprocess_name c.processorOk then
        { success := true,
          log := some { entry with completed := true },
          fileLoc := FileLoc.processed, staged := true }
      else
        { success := false,
          log := some { entry with
                        failed := true,
                        failure_message := some (failureMessage c.customer_name filename) },
          fileLoc := FileLoc.failed, staged := true }

/-- The loop state of `master_tracker_update`: the per-customer effects
accumulated so far and the two counters the source maintains. -/
structure RunAcc where
  results : List CustomerResult
  processed_customers : Nat
  failed_customers : Nat
deriving DecidableEq

/-- One iteration of the customer loop in `master_tracker_update`
(drug_intelligence.py lines 455-469). -/
def master_tracker_step (pid : Nat) (acc : RunAcc) (c : Customer) : RunAcc :=
  let r := execute_each_customer pid c
  { results := acc.results ++ [r],
    processed_customers :=
      if r.success then acc.processed_customers + 1 else acc.processed_customers,
    failed_customers :=
      if r.success then acc.failed_customers else acc.failed_customers + 1 }

/-- Embedding of `master_tracker_update`: fold the customer loop over
the active customers in order. -/
def master_tracker_update (pid : Nat) (cs : List Customer) : RunAcc :=
  cs.foldl (master_tracker_step pid) { results := [], processed_customers := 0, failed_customers := 0 }

/-- The log rows of the current run, as queried by `move_to_bot_out`
from the `log_report` table. -/
def runLogs (pid : Nat) (cs : List Customer) : List LogEntry :=
  (master_tracker_update pid cs).results.filterMap (fun r => r.log)

/-- The all-failed test of `move_to_bot_out` (utils.py line 422):
`true` means the success path is taken, `false` means the run is routed
to `move_to_failed`. -/
def move_to_bot_out_success (logs : List LogEntry) : Bool :=
  !((logs.filter (fun e => e.completed)).isEmpty
      && !(logs.filter (fun e => e.failed)).isEmpty)

/-- The final `process_status` of the run as driven by `main`: a false
`move_to_bot_out` leaves the status written by `move_to_failed`, a true
one reaches `complete_process`. -/
def run_final_status (pid : Nat) (cs : List Customer) : String :=
  if move_to_bot_out_success (runLogs pid cs) then "Completed" else "Failed"

/-- End-of-run file locations: on the success path `move_to_bot_out`
clears the InProgress directory (utils.py lines 461-475), deleting
anything still in it. -/
def end_of_run_results (pid : Nat) (cs : List Customer) : List CustomerResult :=
  let rs := (master_tracker_update pid cs).results
  if move_to_bot_out_success (runLogs pid cs) then
    rs.map (fun r =>
      if r.fileLoc = FileLoc.inProgress then { r with fileLoc := FileLoc.deleted } else r)
  else rs

theorem master_tracker_update_foldl (pid : Nat) (cs : List Customer) :
    ∀ acc : RunAcc,
      (cs.foldl (master_tracker_step pid) acc).results
        = acc.results ++ cs.map (execute_each_customer pid) := by
  induction cs with
  | nil => intro acc; simp
  | cons c cs ih =>
    intro acc
    rw [List.foldl_cons, ih]
    simp [master_tracker_step]

/-- The run processes every customer independently: its list of
per-customer effects is the pointwise image of `execute_each_customer`. -/
theorem run_results_eq_map (pid : Nat) (cs : List Customer) :
    (master_tracker_update pid cs).results = cs.map (execute_each_customer pid) := by
  rw [master_tracker_update, master_tracker_update_foldl]
  rfl

/-- A staged file never stays in InProgress: `execute_each_customer`
finalizes it to Processed or Failed. -/
theorem execute_staged_loc (pid : Nat) (c : Customer)
    (h : (execute_each_customer pid c).staged = true) :
    (execute_each_customer pid c).fileLoc = FileLoc.processed
      ∨ (execute_each_customer pid c).fileLoc = FileLoc.failed := by
  unfold execute_each_customer at *
  cases hsub : c.subprocess with
  | none => simp [hsub] at h
  | some sub =>
    cases hf : c.intakeFiles with
    | nil => simp [hsub, hf] at h
    | cons f fs =>
      by_cases hp : process_customer_file sub.suprocess_name c.processorOk
      · left
        simp [hsub, hf, hp]
      · right
        simp [hsub, hf, hp]

theorem bot_out_false_iff (logs : List LogEntry) :
    move_to_bot_out_success logs = false
      ↔ ((logs.filter (fun e => e.completed)).length = 0
          ∧ 1 ≤ (logs.filter (fun e => e.failed)).length) := by
  unfold move_to_bot_out_success
  constructor
  · intro h
    have h2 : (logs.filter (fun e => e.completed)).isEmpty = true
        ∧ (logs.filter (fun e => e.failed)).isEmpty = false := by
      cases hc : (logs.filter (fun e => e.completed)).isEmpty <;>
        cases hf : (logs.filter (fun e => e.failed)).isEmpty <;>
        simp [hc, hf] at h ⊢
    refine ⟨?_, ?_⟩
    · rw [List.length_eq_zero]
      exact List.isEmpty_iff.mp h2.1
    · have : logs.filter (fun e => e.failed) ≠ [] := by
        intro hnil
        rw [hnil] at h2
        simp at h2
      have := List.length_pos.mpr this
      omega
  · intro ⟨h0, h1⟩
    have hc : (logs.filter (fun e => e.completed)).isEmpty = true := by
      rw [List.isEmpty_iff]
      exact List.length_eq_zero.mp h0
    have hf : (logs.filter (fun e => e.failed)).isEmpty = false := by
      cases hfe : (logs.filter (fun e => e.failed)).isEmpty
      · rfl
      · rw [List.isEmpty_iff.mp hfe] at h1
        simp at h1
    simp [hc, hf]

/-- C1: run disposition.  The run's final status is "Failed" exactly
when no log entry of the run is marked completed and at least one is
marked failed; whenever at least one entry is marked completed the run
ends "Completed", no matter how many entries failed. -/
theorem run_final_disposition (pid : Nat) (cs : List Customer) :
    (run_final_status pid cs = "Failed"
      ↔ (((runLogs pid cs).filter (fun e => e.completed)).length = 0
          ∧ 1 ≤ ((runLogs pid cs).filter (fun e => e.failed)).length))
    ∧ (1 ≤ ((runLogs pid cs).filter (fun e => e.completed)).length
        → run_final_status pid cs = "Completed") := by
  constructor
  · constructor
    · intro h
      cases hb : move_to_bot_out_success (runLogs pid cs)
      · exact (bot_out_false_iff _).mp hb
      · rw [run_final_status, hb] at h
        exact absurd h (by simp)
    · intro hrhs
      rw [run_final_status, (bot_out_false_iff _).mpr hrhs]
      simp
  · intro hge
    cases hb : move_to_bot_out_success (runLogs pid cs)
    · have := ((bot_out_false_iff _).mp hb).1
      omega
    · rw [run_final_status, hb]
      simp

/-- Witness for C1 at a run whose only customer has an unknown
subprocess name: zero completed, one failed, so the final status is
"Failed". -/
def subUnknownW : SubprocessConfig :=
  { suprocess_name := "PROCESS_NOVARTIS", excel_sheetname := "Sheet1",
    excel_startindex := 2, column_names := "Product" }

def custBadW : Customer :=
  { customer_id := 2, customer_name := "Bells", subprocess := some subUnknownW,
    intakeFiles := ["bells.xlsx"], processorOk := true }

def subCaplinW : SubprocessConfig :=
  { suprocess_name := "PROCESS_CAPLIN", excel_sheetname := "Sheet1",
    excel_startindex := 2, column_names := "Product" }

def custGoodW : Customer :=
  { customer_id := 1, customer_name := "Caplin", subprocess := some subCaplinW,
    intakeFiles := ["caplin.xlsx"], processorOk := true }

def custSkipW : Customer :=
  { customer_id := 3, customer_name := "Relonchem", subprocess := none,
    intakeFiles := [], processorOk := true }

theorem run_final_disposition_witness :
    run_final_status 7 [custBadW] = "Failed" :=
  (run_final_disposition 7 [custBadW]).1.mpr ⟨by decide, by decide⟩

/-- C2: file conservation.  Every per-customer file that was moved into
InProgress during the run ends the run in exactly one of
`Processed/<run_id>/<customer_name>/` or
`Failed/<run_id>/<customer_name>/` -- never deleted, never left in
InProgress, and a single location, so never both. -/
theorem file_conservation (pid : Nat) (cs : List Customer) (r : CustomerResult)
    (hr : r ∈ end_of_run_results pid cs) (hs : r.staged = true) :
    (r.fileLoc = FileLoc.processed ∨ r.fileLoc = FileLoc.failed)
    ∧ r.fileLoc ≠ FileLoc.inProgress
    ∧ r.fileLoc ≠ FileLoc.deleted
    ∧ ¬(r.fileLoc = FileLoc.processed ∧ r.fileLoc = FileLoc.failed) := by
  have key : ∀ r0 : CustomerResult, r0 ∈ (master_tracker_update pid cs).results →
      r0.staged = true →
      r0.fileLoc = FileLoc.processed ∨ r0.fileLoc = FileLoc.failed := by
    intro r0 hr0 hs0
    rw [run_results_eq_map] at hr0
    obtain ⟨c, _, hc⟩ := List.mem_map.mp hr0
    rw [← hc] at hs0 ⊢
    exact execute_staged_loc pid c hs0
  have hmain : r.fileLoc = FileLoc.processed ∨ r.fileLoc = FileLoc.failed := by
    simp only [end_of_run_results] at hr
    by_cases hb : move_to_bot_out_success (runLogs pid cs) = true
    · rw [if_pos hb] at hr
      obtain ⟨r0, hr0, heq⟩ := List.mem_map.mp hr
      by_cases hl : r0.fileLoc = FileLoc.inProgress
      · rw [if_pos hl] at heq
        have hs0 : r0.staged = true := by
          rw [← heq] at hs
          exact hs
        rcases key r0 hr0 hs0 with h | h <;> rw [hl] at h <;> exact absurd h (by simp)
      · rw [if_neg hl] at heq
        rw [← heq]
        refine key r0 hr0 ?_
        rw [heq]
        exact hs
    · rw [if_neg hb] at hr
      exact key r hr hs
  refine ⟨hmain, ?_, ?_, ?_⟩ <;> rcases hmain with h | h <;> simp [h]

theorem file_conservation_witness :
    ((execute_each_customer 7 custGoodW).fileLoc = FileLoc.processed
      ∨ (execute_each_customer 7 custGoodW).fileLoc = FileLoc.failed)
    ∧ (execute_each_customer 7 custGoodW).fileLoc ≠ FileLoc.inProgress
    ∧ (execute_each_customer 7 custGoodW).fileLoc ≠ FileLoc.deleted
    ∧ ¬((execute_each_customer 7 custGoodW).fileLoc = FileLoc.processed
        ∧ (execute_each_customer 7 custGoodW).fileLoc = FileLoc.failed) :=
  file_conservation 7 [custGoodW] (execute_each_customer 7 custGoodW)
    (by decide) (by decide)

/-- C5: an unknown extractor name is a failure, not a skip, and it is
isolated.  If customer `i` has a configuration row and an intake file
but its subprocess name is absent from the six-entry map, then that
customer's processing returns false, its file goes to Failed, its log
entry is marked failed, and every customer's outcome (including all the
others) is exactly the pointwise result of its own
`execute_each_customer`, so the run continues unaffected. -/
theorem unknown_extractor_isolated (pid : Nat) (cs : List Customer) (c : Customer)
    (sub : SubprocessConfig)
    (hsub : c.subprocess = some sub)
    (hfiles : c.intakeFiles ≠ [])
    (hunk : processorNames.contains sub.suprocess_name = false) :
    (master_tracker_update pid cs).results = cs.map (execute_each_customer pid)
    ∧ (execute_each_customer pid c).success = false
    ∧ (execute_each_customer pid c).fileLoc = FileLoc.failed
    ∧ ∃ e, (execute_each_customer pid c).log = some e
        ∧ e.failed = true ∧ e.completed = false := by
  have hpcf : process_customer_file sub.suprocess_name c.processorOk = false := by
    unfold process_customer_file
    rw [hunk]
    simp
  cases hf : c.intakeFiles with
  | nil => exact absurd hf hfiles
  | cons f fs =>
    refine ⟨run_results_eq_map pid cs, ?_, ?_, ?_⟩
    · simp [execute_each_customer, hsub, hf, hpcf]
    · simp [execute_each_customer, hsub, hf, hpcf]
    · refine ⟨{ process_id := pid,
                customer_id := c.customer_id,
                customer_name := c.customer_name,
                filename := f,
                initiated := true,
                completed := false,
                failed := true,
                failure_message := some (failureMessage c.customer_name f) },
        ?_, rfl, rfl⟩
      simp [execute_each_customer, hsub, hf, hpcf]

theorem unknown_extractor_isolated_witness :
    (master_tracker_update 7 [custGoodW, custBadW]).results
        = [custGoodW, custBadW].map (execute_each_customer 7)
    ∧ (execute_each_customer 7 custBadW).success = false
    ∧ (execute_each_customer 7 custBadW).fileLoc = FileLoc.failed
    ∧ ∃ e, (execute_each_customer 7 custBadW).log = some e
        ∧ e.failed = true ∧ e.completed = false :=
  unknown_extractor_isolated 7 [custGoodW, custBadW] custBadW subUnknownW
    rfl (by decide) (by decide)

/-- C6: a customer with no subprocess configuration row or with zero
spreadsheet files in its intake folder is skipped: no log entry is
created, no failure is recorded (the dispatcher returns true for it),
its file area is untouched, and the run's per-customer results are
still produced for every customer. -/
theorem skip_no_log (pid : Nat) (cs : List Customer) (c : Customer)
    (h : c.subprocess = none ∨ c.intakeFiles = []) :
    execute_each_customer pid c =
      { success := true, log := none, fileLoc := FileLoc.intake, staged := false }
    ∧ (master_tracker_update pid cs).results = cs.map (execute_each_customer pid) := by
  refine ⟨?_, run_results_eq_map pid cs⟩
  rcases h with h | h
  · simp [execute_each_customer, h]
  · cases hsub : c.subprocess with
    | none => simp [execute_each_customer, hsub]
    | some sub => simp [execute_each_customer, hsub, h]

theorem skip_no_log_witness :
    execute_each_customer 7 custSkipW =
      { success := true, log := none, fileLoc := FileLoc.intake, staged := false }
    ∧ (master_tracker_update 7 [custSkipW]).results
        = [custSkipW].map (execute_each_customer 7) :=
  skip_no_log 7 [custSkipW] custSkipW (Or.inl rfl)

/-- C8: every log entry created during a run carries exactly one of the
completed/failed flags by run end -- never neither, never both. -/
theorem log_flags_exactly_one (pid : Nat) (cs : List Customer) (e : LogEntry)
    (he : e ∈ runLogs pid cs) :
    (e.completed = true ∧ e.failed = false)
      ∨ (e.completed = false ∧ e.failed = true) := by
  unfold runLogs at he
  rw [run_results_eq_map] at he
  obtain ⟨r, hr, hlog⟩ := List.mem_filterMap.mp he
  obtain ⟨c, _, hc⟩ := List.mem_map.mp hr
  rw [← hc] at hlog
  unfold execute_each_customer at hlog
  cases hsub : c.subprocess with
  | none => simp [hsub] at hlog
  | some sub =>
    cases hf : c.intakeFiles with
    | nil => simp [hsub, hf] at hlog
    | cons f fs =>
      by_cases hp : process_customer_file sub.suprocess_name c.processorOk
      · left
        simp [hsub, hf, hp] at hlog
        rw [← hlog]
        exact ⟨rfl, rfl⟩
      · right
        simp [hsub, hf, hp] at hlog
        rw [← hlog]
        exact ⟨rfl, rfl⟩

/-! ## Master tracker validation
(`DrugIntelligenceWorkflow.validate_master_tracker`, drug_intelligence.py
lines 231-306, `move_to_failed`, lines 340-411, and
`ExcelManager.parse_excel_with_dynamic_header`, scraper.py lines 231-264)

`validate_master_tracker` asks the excel manager to parse the staged
tracker against the required column list.  The excel manager wrapper in
scraper.py catches every exception of the underlying ExcelHandler and
returns `None`, so the only exception the validation try-block can see
is its own `raise` on a falsy result, whose detail text is the fixed
string "Master tracker validation failed - columns or sheet not found".
That exception is caught, wrapped in the error message built at
drug_intelligence.py line 281, and routed through `move_to_failed`,
which sets the run status to Failed, records the error message and
moves the tracker file under `Failed/<process_id>/`.  The missing
column's name therefore never reaches the recorded message. -/

/-- Run-level state touched by validation and failure routing. -/
inductive TrackerLoc
  | intakeDir
  | inProgressDir
  | failedDir
  | outputDir
deriving DecidableEq

/-- The run record fields written by `update_process_status`,
`move_to_failed` and `complete_process`. -/
structure ProcessState where
  process_status : String
  error_message : Option String
  tracker_loc : TrackerLoc
deriving DecidableEq

/-- Embedding of `move_to_failed` (drug_intelligence.py lines 340-411):
moves the tracker under `Failed/<process_id>/`, writes status Failed
with the error message, and sends the failure notification (not
modelled). -/
def move_to_failed (error_message : String) (st : ProcessState) : ProcessState :=
  { st with
    process_status := "Failed",
    error_message := some error_message,
    tracker_loc := TrackerLoc.failedDir }

/-- Decidable substring test on character lists. -/
def isSubstrOfChars (needle : List Char) : List Char → Bool
  | [] => needle.isEmpty
  | c :: rest => needle.isPrefixOf (c :: rest) || isSubstrOfChars needle rest

/-- Case-insensitive substring match between a header cell and a
required column name. -/
def containsCI (cell col : String) : Bool :=
  isSubstrOfChars (lowerChars col.toList) (lowerChars cell.toList)

/-- Modelled from the spec: the ExcelHandler class is imported
dynamically from an external `ExcelHandler` folder (scraper.py lines
30-42) and is not among the provided sources.  Per the specification
(section 4.3) it locates the header row by scanning rows for any cell
matching any required column name (case-insensitive substring match),
then checks that every required column is found in that header row,
raising an error naming the first missing column on failure.  Only its
success-or-failure outcome is observable in the sources: the
ExcelManager wrapper below discards the detail. -/
def excelHandler_parse_dynamic_header (rows : List (List String))
    (required : List String) : Except String (List (List String)) :=
  match rows.find? (fun row => row.any (fun cell => required.any (fun col => containsCI cell col))) with
  | none => Except.error "Sheet or header row not found"
  | some header =>
    match required.find? (fun col => !(header.any (fun cell => containsCI cell col))) with
    | some missing => Except.error missing
    | none => Except.ok rows

/-- Embedding of `ExcelManager.parse_excel_with_dynamic_header`
(scraper.py lines 231-264): forwards to the ExcelHandler and catches
every exception, returning `None`; the exception's detail is logged but
never propagated. -/
def parse_excel_with_dynamic_header
    (handlerResult : Except String (List (List String))) : Option (List (List String)) :=
  match handlerResult with
  | Except.ok result => some result
  | Except.error _ => none

/-- The detail text of the exception raised by `validate_master_tracker`
itself on a falsy parser result (drug_intelligence.py line 278) -- the
only exception its try-block can see, since the excel manager swallows
all others. -/
def validationFallbackDetail : String :=
  "Master tracker validation failed - columns or sheet not found"

/-- The error message built at drug_intelligence.py line 281. -/
def validationErrorMessage (details : String) : String :=
  "Wrong Master Tracker File was uploaded - Column/Sheet not found: " ++ details

/-- Embedding of `validate_master_tracker` (drug_intelligence.py lines
231-306): records the validation Initiated status; a `None` or empty
parser result triggers the line-278 raise, whose fixed detail is
wrapped in the line-281 message and routed through `move_to_failed`,
returning false; a nonempty result records the validation Completed
status. -/
def validate_master_tracker (parseResult : Option (List (List String)))
    (st : ProcessState) : Bool × ProcessState :=
  let st1 := { st with process_status := "Master Tracker Validation Initiated" }
  match parseResult with
  | none =>
    (false, move_to_failed (validationErrorMessage validationFallbackDetail) st1)
  | some rows =>
    if rows.isEmpty then
      (false, move_to_failed (validationErrorMessage validationFallbackDetail) st1)
    else
      (true, { st1 with process_status := "Master Tracker Validation Completed" })

/-- The state of a run whose tracker has just been staged. -/
def stagedState : ProcessState :=
  { process_status := "File Moved to Inprogress", error_message := none,
    tracker_loc := TrackerLoc.inProgressDir }

/-- C3 counterexample: a tracker sheet missing the "Comments" column is
routed to Failed, but the recorded error message is the fixed string
"Wrong Master Tracker File was uploaded - Column/Sheet not found:
Master tracker validation failed - columns or sheet not found".  The
message quoted by the claim, "Wrong Master Tracker File - Column/Sheet
not found", is not a substring of it, and neither is the missing
column's name "Comments": the excel manager swallows the parser detail,
so the claim's quoted literal and its "naming the missing column" are
both wrong. -/
theorem validation_message_counterexample :
    (validate_master_tracker
        (parse_excel_with_dynamic_header
          (excelHandler_parse_dynamic_header
            [["Product Name", "Caplin", "Bells"]]
            ["Product Name", "Caplin", "Bells", "Comments"]))
        stagedState).2.error_message
      = some "Wrong Master Tracker File was uploaded - Column/Sheet not found: Master tracker validation failed - columns or sheet not found"
    ∧ (validate_master_tracker
        (parse_excel_with_dynamic_header
          (excelHandler_parse_dynamic_header
            [["Product Name", "Caplin", "Bells"]]
            ["Product Name", "Caplin", "Bells", "Comments"]))
        stagedState).2.process_status = "Failed"
    ∧ isSubstrOfChars
        "Wrong Master Tracker File - Column/Sheet not found".toList
        "Wrong Master Tracker File was uploaded - Column/Sheet not found: Master tracker validation failed - columns or sheet not found".toList
      = false
    ∧ isSubstrOfChars
        "Comments".toList
        "Wrong Master Tracker File was uploaded - Column/Sheet not found: Master tracker validation failed - columns or sheet not found".toList
      = false := by decide

/-- C3 (amended): whenever the tracker parser fails (a missing required
sheet or column makes the ExcelHandler report an error, which the excel
manager wrapper converts to `None`), validation aborts the whole run:
it returns false, the run status becomes Failed with the fixed error
message "Wrong Master Tracker File was uploaded - Column/Sheet not
found: Master tracker validation failed - columns or sheet not found"
-- which does not name the missing column -- and the tracker file is
routed under `Failed/<run_id>/`. -/
theorem validation_failure_amended (rows : List (List String))
    (required : List String) (st : ProcessState) (e : String)
    (h : excelHandler_parse_dynamic_header rows required = Except.error e) :
    (validate_master_tracker
        (parse_excel_with_dynamic_header (excelHandler_parse_dynamic_header rows required))
        st).1 = false
    ∧ (validate_master_tracker
        (parse_excel_with_dynamic_header (excelHandler_parse_dynamic_header rows required))
        st).2.process_status = "Failed"
    ∧ (validate_master_tracker
        (parse_excel_with_dynamic_header (excelHandler_parse_dynamic_header rows required))
        st).2.tracker_loc = TrackerLoc.failedDir
    ∧ (validate_master_tracker
        (parse_excel_with_dynamic_header (excelHandler_parse_dynamic_header rows required))
        st).2.error_message
        = some "Wrong Master Tracker File was uploaded - Column/Sheet not found: Master tracker validation failed - columns or sheet not found" := by
  rw [h]
  exact ⟨rfl, rfl, rfl, rfl⟩

theorem validation_failure_amended_witness :
    (validate_master_tracker
        (parse_excel_with_dynamic_header
          (excelHandler_parse_dynamic_header [["Product Name"]] ["Product Name", "Comments"]))
        stagedState).1 = false
    ∧ (validate_master_tracker
        (parse_excel_with_dynamic_header
          (excelHandler_parse_dynamic_header [["Product Name"]] ["Product Name", "Comments"]))
        stagedState).2.process_status = "Failed"
    ∧ (validate_master_tracker
        (parse_excel_with_dynamic_header
          (excelHandler_parse_dynamic_header [["Product Name"]] ["Product Name", "Comments"]))
        stagedState).2.tracker_loc = TrackerLoc.failedDir
    ∧ (validate_master_tracker
        (parse_excel_with_dynamic_header
          (excelHandler_parse_dynamic_header [["Product Name"]] ["Product Name", "Comments"]))
        stagedState).2.error_message
        = some "Wrong Master Tracker File was uploaded - Column/Sheet not found: Master tracker validation failed - columns or sheet not found" :=
  validation_failure_amended [["Product Name"]] ["Product Name", "Comments"]
    stagedState "Comments" rfl

theorem log_flags_exactly_one_witness :
    ({ process_id := 7, customer_id := 1, customer_name := "Caplin",
       filename := "caplin.xlsx", initiated := true, completed := true,
       failed := false, failure_message := none } : LogEntry).completed = true
      ∧ ({ process_id := 7, customer_id := 1, customer_name := "Caplin",
           filename := "caplin.xlsx", initiated := true, completed := true,
           failed := false, failure_message := none } : LogEntry).failed = false := by
  have h := log_flags_exactly_one 7 [custGoodW]
    { process_id := 7, customer_id := 1, customer_name := "Caplin",
      filename := "caplin.xlsx", initiated := true, completed := true,
      failed := false, failure_message := none } (by decide)
  rcases h with h | h
  · exact h
  · exact absurd h.1 (by decide)

/-! ## Report aggregation
(`generate_include_exclude_count_report`, utils.py lines 73-188; the
copy in drug_intelligence.py lines 841-925 truncates the same two
tables and computes the same counts but omits the summary-row insert,
so the full utils.py method is the one embedded)

The method truncates the two summary tables, then walks the fixed list
of six customer report tables in order; for each it counts the rows of
the current run grouped by include/exclude status and appends one
summary row with the include count, the exclude count and their sum. -/

/-- A row of one of the six per-customer report tables, restricted to
the columns aggregation reads. -/
structure ReportRow where
  process_id : Nat
  include_exclude_status : String
deriving DecidableEq

/-- A row of the `inclusion_exclusion_counts` summary table. -/
structure SummaryRow where
  process_id : Nat
  customer_name : String
  include_count : Nat
  exclude_count : Nat
  total_count : Nat
deriving DecidableEq

/-- A row of the `overall_count_report` summary table (only its
truncation matters here; it is filled by `generate_overall_report`). -/
structure OverallCountRow where
  process_id : Nat
  customer_id : Nat
  customer_name : String
  y_count : Nat
  n_count : Nat
deriving DecidableEq

/-- The database tables touched by the aggregation step. -/
structure ReportDB where
  caplin_master_report : List ReportRow
  bells_master_report : List ReportRow
  relonchem_master_report : List ReportRow
  marksans_usa_master_report : List ReportRow
  padagis_usa_master_report : List ReportRow
  padagis_israle_master_report : List ReportRow
  overall_count_report : List OverallCountRow
  inclusion_exclusion_counts : List SummaryRow
deriving DecidableEq

/-- The fixed `customer_tables` list of utils.py lines 96-103, resolved
against the database. -/
def customerTables (db : ReportDB) : List (String × List ReportRow) :=
  [("Caplin", db.caplin_master_report),
   ("Bells", db.bells_master_report),
   ("Relonchem", db.relonchem_master_report),
   ("Marksans USA", db.marksans_usa_master_report),
   ("Padagis USA", db.padagis_usa_master_report),
   ("Padagis Israel", db.padagis_israle_master_report)]

/-- Semantics of the grouped count query of utils.py lines 124-131:
the number of rows of the table belonging to the current run with the
given include/exclude status. -/
def statusCount (rows : List ReportRow) (pid : Nat) (status : String) : Nat :=
  (rows.filter (fun r => r.process_id == pid && r.include_exclude_status == status)).length

/-- Embedding of `generate_include_exclude_count_report` (utils.py
lines 73-188): truncate the two summary tables, then append one
summary row per customer report table with the include count, the
exclude count and the total.  The Excel mirror of each row is not
modelled. -/
def generate_include_exclude_count_report (db : ReportDB) (pid : Nat) : ReportDB :=
  let db1 := { db with overall_count_report := [], inclusion_exclusion_counts := [] }
  (customerTables db).foldl
    (fun acc entry =>
      let include_count := statusCount entry.2 pid "include"
      let exclude_count := statusCount entry.2 pid "exclude"
      let total_count := include_count + exclude_count
      { acc with inclusion_exclusion_counts :=
          acc.inclusion_exclusion_counts ++
            [{ process_id := pid,
               customer_name := entry.1,
               include_count := include_count,
               exclude_count := exclude_count,
               total_count := total_count }] })
    db1

/-- The summary row the aggregation writes for one customer table. -/
def summaryRowFor (pid : Nat) (entry : String × List ReportRow) : SummaryRow :=
  { process_id := pid,
    customer_name := entry.1,
    include_count := statusCount entry.2 pid "include",
    exclude_count := statusCount entry.2 pid "exclude",
    total_count := statusCount entry.2 pid "include" + statusCount entry.2 pid "exclude" }

theorem report_foldl_counts (pid : Nat) (tables : List (String × List ReportRow)) :
    ∀ acc : ReportDB,
      (tables.foldl
        (fun acc entry =>
          let include_count := statusCount entry.2 pid "include"
          let exclude_count := statusCount entry.2 pid "exclude"
          let total_count := include_count + exclude_count
          { acc with inclusion_exclusion_counts :=
              acc.inclusion_exclusion_counts ++
                [{ process_id := pid,
                   customer_name := entry.1,
                   include_count := include_count,
                   exclude_count := exclude_count,
                   total_count := total_count }] })
        acc).inclusion_exclusion_counts
      = acc.inclusion_exclusion_counts ++ tables.map (summaryRowFor pid) := by
  induction tables with
  | nil => intro acc; simp
  | cons t ts ih =>
    intro acc
    rw [List.foldl_cons, ih]
    simp [summaryRowFor]

theorem report_foldl_overall (pid : Nat) (tables : List (String × List ReportRow)) :
    ∀ acc : ReportDB,
      (tables.foldl
        (fun acc entry =>
          let include_count := statusCount entry.2 pid "include"
          let exclude_count := statusCount entry.2 pid "exclude"
          let total_count := include_count + exclude_count
          { acc with inclusion_exclusion_counts :=
              acc.inclusion_exclusion_counts ++
                [{ process_id := pid,
                   customer_name := entry.1,
                   include_count := include_count,
                   exclude_count := exclude_count,
                   total_count := total_count }] })
        acc).overall_count_report
      = acc.overall_count_report := by
  induction tables with
  | nil => intro acc; simp
  | cons t ts ih =>
    intro acc
    rw [List.foldl_cons, ih]

/-- C9: report aggregation truncates both summary tables first and
then writes exactly one summary row per customer: the resulting
summary content is independent of whatever the two summary tables held
before, the overall-count table is left truncated, the six rows carry
the six customer names in order (pairwise distinct, hence exactly one
row per customer), each row belongs to the current run, and each total
equals that customer's include count plus exclude count over its report
rows of the current run. -/
theorem include_exclude_count_report_spec (db : ReportDB) (pid : Nat)
    (a : List OverallCountRow) (b : List SummaryRow) :
    generate_include_exclude_count_report
        { db with overall_count_report := a, inclusion_exclusion_counts := b } pid
      = generate_include_exclude_count_report db pid
    ∧ (generate_include_exclude_count_report db pid).overall_count_report = []
    ∧ (generate_include_exclude_count_report db pid).inclusion_exclusion_counts
        = (customerTables db).map (summaryRowFor pid)
    ∧ ((generate_include_exclude_count_report db pid).inclusion_exclusion_counts.map
          (fun row => row.customer_name)
        = ["Caplin", "Bells", "Relonchem", "Marksans USA", "Padagis USA", "Padagis Israel"]
        ∧ (["Caplin", "Bells", "Relonchem", "Marksans USA", "Padagis USA",
            "Padagis Israel"] : List String).Nodup)
    ∧ ∀ row ∈ (generate_include_exclude_count_report db pid).inclusion_exclusion_counts,
        row.process_id = pid
        ∧ row.total_count = row.include_count + row.exclude_count := by
  have hcounts : (generate_include_exclude_count_report db pid).inclusion_exclusion_counts
      = (customerTables db).map (summaryRowFor pid) := by
    unfold generate_include_exclude_count_report
    rw [report_foldl_counts]
    simp
  have hoverall : (generate_include_exclude_count_report db pid).overall_count_report = [] := by
    unfold generate_include_exclude_count_report
    rw [report_foldl_overall]
  refine ⟨rfl, hoverall, hcounts, ⟨?_, by decide⟩, ?_⟩
  · rw [hcounts]
    simp [customerTables, summaryRowFor]
  · intro row hrow
    rw [hcounts] at hrow
    obtain ⟨entry, _, hentry⟩ := List.mem_map.mp hrow
    rw [← hentry]
    exact ⟨rfl, rfl⟩

/-- Witness for the C9 theorem at a one-row database: the Caplin
summary row of the run carries total 1 = 1 + 0. -/
def reportDBW : ReportDB :=
  { caplin_master_report := [{ process_id := 7, include_exclude_status := "include" }],
    bells_master_report := [],
    relonchem_master_report := [],
    marksans_usa_master_report := [],
    padagis_usa_master_report := [],
    padagis_israle_master_report := [],
    overall_count_report := [],
    inclusion_exclusion_counts :=
      [{ process_id := 3, customer_name := "Stale", include_count := 9,
         exclude_count := 9, total_count := 99 }] }

theorem include_exclude_count_report_spec_witness :
    (generate_include_exclude_count_report reportDBW 7).overall_count_report = []
    ∧ (generate_include_exclude_count_report reportDBW 7).inclusion_exclusion_counts
        = (customerTables reportDBW).map (summaryRowFor 7) :=
  ⟨(include_exclude_count_report_spec reportDBW 7 [] []).2.1,
   (include_exclude_count_report_spec reportDBW 7 [] []).2.2.1⟩

end DrugIntelligence
